import Mathlib

set_option autoImplicit false

/-!
Shallow embedding of the tag-based virtual filesystem (Rust sources:
`src/main.rs`, `src/tagger/mod.rs`, `src/filesystem/tagfs.rs`,
`src/filesystem/libc_wrappers.rs`).

Modelling conventions:
* `OsString` / `&OsStr` become `String`.
* Filesystem paths (both virtual paths handed in by the kernel and backing
  source paths) become their list of normal components, `List String`; the
  FUSE layer only ever hands the adapter canonical absolute paths, so
  `Component::RootDir` is implicit and `CurDir`/`ParentDir` do not occur.
  `Path::parent` becomes `List.dropLast` and `Path::file_name` becomes
  `List.getLast?`.
* `HashSet<usize>` becomes `Finset Nat`; where the Rust code *iterates* such a
  set (whose iteration order is unspecified and seeded per process), the
  iteration is made explicit as a `List Nat` parameter named `order`.
* `HashMap<Tag, HashSet<usize>>` becomes an association list
  `List (Tag × Finset Nat)`; map iteration again follows the list order.
* A Rust panic (the `todo` / `panic` macros) is modelled as `Option.none` /
  a dedicated marker: the function has no ordinary result there.
* `io::Error` keeps only what the adapter consumes: `raw_os_error`.
-/

namespace TagFSProof

/-- Separator between a tag's label and value in its display form
    (`TAG_SEPARATOR` in `src/tagger/mod.rs`). -/
def TAG_SEPARATOR : String := ":"

/-- The `TagLabel` struct of `src/tagger/mod.rs`: label text plus the
    singleton flag. Equality is derived over both fields, as in Rust. -/
structure TagLabel where
  label : String
  singleton : Bool
deriving DecidableEq, Hashable, Repr

/-- The `Tag` struct of `src/tagger/mod.rs`: optional label, value, and the
    precomputed display string. Equality and hashing are derived over all
    three fields, exactly as Rust's `derive(PartialEq, Eq, Hash)`. -/
structure Tag where
  label : Option TagLabel
  value : String
  display : String
deriving DecidableEq, Hashable, Repr

namespace Tag

/-- `Tag::new(label, singleton, value)`: labeled constructor; the display is
    `label ++ TAG_SEPARATOR ++ value`. -/
def new (label : String) (singleton : Bool) (value : String) : Tag :=
  { label := some { label := label, singleton := singleton }
    value := value
    display := label ++ TAG_SEPARATOR ++ value }

/-- `impl From<OsString> for Tag`: unlabeled constructor; display equals the
    value. -/
def fromValue (value : String) : Tag :=
  { label := none, value := value, display := value }

/-- `Tag::as_os_str`: the display form used as the directory name. -/
def asOsStr (t : Tag) : String := t.display

/-- `Tag::is_singleton`: the label's singleton flag, `false` when unlabeled. -/
def isSingleton (t : Tag) : Bool := (t.label.map TagLabel.singleton).getD false

/-- The label text of `Tag::label()` as an `Option`; the Rust accessor
    panics (`todo` macro) on an unlabeled tag, which callers guard by
    checking `is_singleton` first, so the `Option` form is only ever
    compared where `isSingleton` holds. -/
def labelName (t : Tag) : Option String := t.label.map TagLabel.label

end Tag

/-- The `Error` enum of `src/tagger/mod.rs`. -/
inductive TaggerError
  | Illegible
deriving DecidableEq, Repr

/-- A registered tagger, as the adapter sees it: `tag(path) → Result<HashSet<Tag>, Error>`. -/
def TaggerFn : Type := List String → Except TaggerError (Finset Tag)

/-- `FileUpdater::tag` from `src/main.rs`: fold the taggers over an
    accumulating tag set; `Ok(tags)` is unioned in, while the `Err(_)` arm of
    the Rust `match` is the `todo` macro, i.e. a panic — modelled as `none`
    (once a tagger fails there is no ordinary result). -/
def FileUpdater.tag (taggers : List TaggerFn) (path : List String) : Option (Finset Tag) :=
  taggers.foldl
    (fun acc tagger =>
      match acc, tagger path with
      | none, _ => none
      | some s, Except.ok tags => some (s ∪ tags)
      | some _, Except.error _ => none)
    (some ∅)

/-- The `Entry` struct of `src/filesystem/tagfs.rs`: a backing source path. -/
structure Entry where
  source : List String
deriving DecidableEq, Repr

/-- The index part of the `TagFS` struct of `src/filesystem/tagfs.rs`:
    insertion-ordered file entries plus the tag → file-id map (the
    `libc_wrapper` field is passed to operations explicitly). -/
structure TagFS where
  files : List Entry
  tags : List (Tag × Finset Nat)
deriving DecidableEq

namespace TagFS

/-- `TagFS::get_tag`: find the (first) tag whose display string equals the
    path component. -/
def getTag (fs : TagFS) (c : String) : Option (Tag × Finset Nat) :=
  fs.tags.find? (fun p => p.1.display == c)

/-- `TagFS::contains_tag`: `get_tag(tag).is_some()`. -/
def containsTag (fs : TagFS) (c : String) : Bool :=
  (fs.getTag c).isSome

/-- One iteration of the `valid_files` accumulation loop of `TagFS::lookup`:
    a component that is a known tag intersects its id set in (or starts the
    set), while an unknown component is merely logged and skipped. -/
def validStep (fs : TagFS) (acc : Option (Finset Nat)) (c : String) :
    Option (Finset Nat) :=
  match fs.getTag c with
  | some p =>
    match acc with
    | none => some p.2
    | some a => some (a ∩ p.2)
  | none => acc

/-- The `valid_files` accumulation loop of `TagFS::lookup` over the parent
    components, starting from `None`; `none` means no known-tag component was
    seen. -/
def validFiles (fs : TagFS) (parent : List String) : Option (Finset Nat) :=
  parent.foldl fs.validStep none

end TagFS

/-- The `LookupResult` enum of `src/filesystem/tagfs.rs`. -/
inductive LookupResult
  | Directory
  | File (source : List String)
  | Missing
deriving DecidableEq, Repr

/-- `TagFS::lookup`. The first arm: if every normal component is a known tag
    display, the path is a (root or tag) directory. Otherwise the parent's
    known tags are intersected (`validFiles`); if no parent component was a
    known tag the result is `Missing`; else the intersection set is iterated
    (`order` is the `HashSet` iteration, made explicit) and the first entry
    whose source basename equals the path's last component is returned as
    `File`, or `Missing` if none matches. -/
def TagFS.lookupWithOrder (fs : TagFS) (order : List Nat) (path : List String) :
    LookupResult :=
  if path.all fs.containsTag then
    LookupResult.Directory
  else
    match fs.validFiles path.dropLast with
    | none => LookupResult.Missing
    | some _ =>
      match ((order.filterMap (fun i => fs.files[i]?)).filter
          (fun e => e.source.getLast? == path.getLast?)).head? with
      | none => LookupResult.Missing
      | some e => LookupResult.File e.source

/-- Errno for "no such file or directory" (libc `ENOENT`). -/
def ENOENT : Int := 2

/-- Errno for "operation not permitted" (libc `EPERM`). -/
def EPERM : Int := 1

/-- What the adapter consumes of a Rust `io::Error`: its optional raw OS
    errno (`raw_os_error`). -/
structure IOErr where
  rawOsError : Option Int
deriving DecidableEq, Repr

/-- The shim's `unlink` operation: `unlink(path) → io::Result<()>`. -/
def UnlinkShim : Type := List String → Except IOErr Unit

/-- `TagFS::unlink` (`FilesystemMT` impl in `src/filesystem/tagfs.rs`):
    join `parent/name`, resolve it; `Directory` and `Missing` answer `ENOENT`
    without touching the shim; `File(source)` calls the shim's `unlink` and
    maps an error to its raw errno, substituting `ENOENT` only when the raw
    errno is unavailable. -/
def TagFS.unlink (fs : TagFS) (shim : UnlinkShim) (order : List Nat)
    (parent : List String) (name : String) : Except Int Unit :=
  match fs.lookupWithOrder order (parent ++ [name]) with
  | LookupResult.Directory => Except.error ENOENT
  | LookupResult.Missing => Except.error ENOENT
  | LookupResult.File source =>
    match shim source with
    | Except.ok _ => Except.ok ()
    | Except.error e => Except.error (e.rawOsError.getD ENOENT)

/-- State-passing form of `TagFS::unlink`. The Rust method takes `&self`
    (an immutable borrow), so the post-state is the unchanged receiver; the
    pair makes that frame effect explicit. -/
def TagFS.unlinkS (fs : TagFS) (shim : UnlinkShim) (order : List Nat)
    (parent : List String) (name : String) : Except Int Unit × TagFS :=
  (fs.unlink shim order parent name, fs)

/-- The `FileType` enum of `fuse_mt` as used by the adapter. -/
inductive FileType
  | Directory
  | RegularFile
  | Symlink
  | BlockDevice
  | CharDevice
  | NamedPipe
  | Socket
deriving DecidableEq, Repr

/-- The `file_ids` computation of `get_children` in `src/filesystem/tagfs.rs`:
    empty at root, otherwise the intersection of the id sets of the tags whose
    display occurs among the path components (fold starting from `None`,
    `unwrap_or_default` when no tag matched). -/
def fileIds (rootTags : List String) (tags : List (Tag × Finset Nat)) : Finset Nat :=
  if rootTags.isEmpty then ∅
  else
    match (tags.filter (fun p => rootTags.contains p.1.display)).map Prod.snd with
    | [] => ∅
    | s :: rest => rest.foldl (fun a v => a ∩ v) s

/-- The `singleton_labels` set of `get_children`: the labels of the singleton
    tags whose display occurs among the path components. -/
def singletonLabels (rootTags : List String) (tags : List (Tag × Finset Nat)) :
    List (Option String) :=
  ((tags.map Prod.fst).filter
      (fun t => rootTags.contains t.display && t.isSingleton)).map Tag.labelName

/-- The tag-directory part of `get_children`: every indexed tag that is not
    already a path component and that is not a singleton tag whose label is
    already committed on the path. -/
def tagDirChildren (rootTags : List String) (tags : List (Tag × Finset Nat)) :
    List Tag :=
  (tags.map Prod.fst).filter
    (fun t =>
      !(rootTags.contains t.display) &&
        (!t.isSingleton || !((singletonLabels rootTags tags).contains t.labelName)))

/-- The seen-set driven deduplication of itertools' `unique()`: keep the first
    occurrence of each element, in iteration order. -/
def uniqueKeepFirstAux (seen : List String) : List String → List String
  | [] => []
  | a :: l =>
    if seen.contains a then uniqueKeepFirstAux seen l
    else a :: uniqueKeepFirstAux (a :: seen) l

/-- `unique()` over basenames, keeping first occurrences. -/
def uniqueKeepFirst (l : List String) : List String :=
  uniqueKeepFirstAux [] l

/-- The file-children part of `get_children`: iterate the intersection set
    (`order` is the `HashSet` iteration, made explicit), fetch each entry,
    take its source basename, and deduplicate keeping first occurrences. -/
def fileChildrenOrder (order : List Nat) (files : List Entry) : List String :=
  uniqueKeepFirst ((order.filterMap (fun i => files[i]?)).filterMap
    (fun e => e.source.getLast?))

/-- `get_children` of `src/filesystem/tagfs.rs`: remaining tags as directory
    entries chained with the deduplicated file basenames as regular-file
    entries (`readdir` additionally prepends the dot entries). -/
def getChildrenOrder (order : List Nat) (rootTags : List String)
    (tags : List (Tag × Finset Nat)) (files : List Entry) :
    List (FileType × String) :=
  (tagDirChildren rootTags tags).map (fun t => (FileType.Directory, t.display)) ++
    (fileChildrenOrder order files).map (fun b => (FileType.RegularFile, b))

/-- File-type bits mask of `st_mode` (libc, Linux values). -/
def S_IFMT : Nat := 0o170000

/-- Directory file-type bits. -/
def S_IFDIR : Nat := 0o040000

/-- Regular-file file-type bits. -/
def S_IFREG : Nat := 0o100000

/-- Symlink file-type bits. -/
def S_IFLNK : Nat := 0o120000

/-- Block-device file-type bits. -/
def S_IFBLK : Nat := 0o060000

/-- Character-device file-type bits. -/
def S_IFCHR : Nat := 0o020000

/-- FIFO file-type bits. -/
def S_IFIFO : Nat := 0o010000

/-- Socket file-type bits. -/
def S_IFSOCK : Nat := 0o140000

/-- `mode_to_filetype` of `src/filesystem/libc_wrappers.rs`: dispatch on
    `mode & S_IFMT`; the catch-all arm of the Rust `match` is
    `panic("unknown file type")`, modelled as `none` — there is no ordinary
    result and no errno reply for unknown file-type bits. -/
def mode_to_filetype (mode : Nat) : Option FileType :=
  let m := mode &&& S_IFMT
  if m = S_IFDIR then some FileType.Directory
  else if m = S_IFREG then some FileType.RegularFile
  else if m = S_IFLNK then some FileType.Symlink
  else if m = S_IFBLK then some FileType.BlockDevice
  else if m = S_IFCHR then some FileType.CharDevice
  else if m = S_IFIFO then some FileType.NamedPipe
  else if m = S_IFSOCK then some FileType.Socket
  else none

/-- Modelled from the spec: section 7 of the specification requires that an
    unknown `st_mode` file type "fail the request with a clear errno (EIO)"
    instead of aborting; this definition follows those words (errno 5 is
    libc EIO) for comparison with `mode_to_filetype`, whose catch-all arm
    panics. -/
def mode_to_filetype_spec (mode : Nat) : Except Int FileType :=
  match mode_to_filetype mode with
  | some ft => Except.ok ft
  | none => Except.error 5

/-- `LibcWrapperReal::read` of `src/filesystem/libc_wrappers.rs`. The two
    syscalls it performs are passed in as functions: `lseek` (seek the
    descriptor to the offset, `lseek64(fd, offset, SEEK_SET)`) and `sysRead`,
    which returns the bytes the `read` syscall actually placed in the buffer
    (their number is the syscall's return value, at most `count`). The Rust
    code allocates `buf = vec![0; count]`, lets the syscall fill a prefix,
    and then returns the *whole* buffer `Ok(buf)` — it never truncates to the
    number of bytes read, so the result is the read prefix padded with zeros
    to `count`. -/
def LibcWrapperReal.read (lseek : Int → Except IOErr Int)
    (sysRead : Nat → Except IOErr (List Nat)) (offset : Int) (count : Nat) :
    Except IOErr (List Nat) :=
  match lseek offset with
  | Except.error e => Except.error e
  | Except.ok _ =>
    match sysRead count with
    | Except.error e => Except.error e
    | Except.ok bytes => Except.ok (bytes ++ List.replicate (count - bytes.length) 0)

/-- `TagFS::read` of `src/filesystem/tagfs.rs`: the wrapper's result is handed
    to the kernel callback unchanged — the full returned buffer as the slice
    on success, the raw errno (`ENOENT` fallback) on failure. -/
def TagFS.readAdapter (wrapperRead : Except IOErr (List Nat)) :
    Except Int (List Nat) :=
  match wrapperRead with
  | Except.ok content => Except.ok content
  | Except.error e => Except.error (e.rawOsError.getD ENOENT)

/-- Fixture: one file `/src/f.txt` under the single tag `t1`. -/
def fsC2 : TagFS :=
  { files := [{ source := ["src", "f.txt"] }]
    tags := [(Tag.fromValue "t1", {0})] }

/-- Fixture: two files that share the basename `f.txt`, both under tag `t`. -/
def fs8 : TagFS :=
  { files := [{ source := ["a", "f.txt"] }, { source := ["b", "f.txt"] }]
    tags := [(Tag.fromValue "t", {0, 1})] }

/-- Fixture: the unlink test scenario of `src/filesystem/tagfs.rs` — one file
    `/fake/source/present.txt` under tag `tag`. -/
def fs5 : TagFS :=
  { files := [{ source := ["fake", "source", "present.txt"] }]
    tags := [(Tag.fromValue "tag", {0})] }

/-- A shim whose `unlink` always fails with raw errno `EPERM`. -/
def shimEperm : UnlinkShim := fun _ => Except.error { rawOsError := some EPERM }

/-- A shim whose `unlink` always succeeds. -/
def shimOk : UnlinkShim := fun _ => Except.ok ()

/-- Claim C1 (code evaluated at the failing input): when the first registered
    tagger returns `Illegible`, `FileUpdater::tag` panics (the `Err` arm is
    the `todo` macro, modelled as `none`) instead of discarding the failure
    and unioning the remaining taggers' tags; with the failing tagger absent
    the very same fold yields the other tagger's tag set. -/
theorem c1_tagger_failure_panics :
    FileUpdater.tag
        [fun _ => Except.error TaggerError.Illegible,
         fun _ => Except.ok {Tag.fromValue "t"}] ["f"] = none ∧
      FileUpdater.tag [fun _ => Except.ok {Tag.fromValue "t"}] ["f"] =
        some {Tag.fromValue "t"} := by
  constructor
  · rfl
  · decide

/-- Claim C2 (counterexample): in `fsC2` the component `unknown` is not a tag
    display, yet `lookup` classifies `/t1/unknown/f.txt` as `File` — the
    unknown parent component is skipped, not treated as `Missing`. -/
theorem c2_unknown_parent_counterexample :
    fsC2.containsTag "t1" = true ∧
      fsC2.containsTag "unknown" = false ∧
      fsC2.lookupWithOrder [0] ["t1", "unknown", "f.txt"] =
        LookupResult.File ["src", "f.txt"] := by
  decide

/-- Claim C3 (counterexample): `file1.txt`… here `f.txt` is the basename of a
    file entry of `fsC2` and not a tag display, yet the single-component path
    `/f.txt` resolves to `Missing`, not `File`: with an empty parent the
    `valid_files` accumulator stays `None`. -/
theorem c3_root_parent_counterexample :
    fsC2.containsTag "f.txt" = false ∧
      fsC2.files.any (fun e => e.source.getLast? == some "f.txt") = true ∧
      fsC2.lookupWithOrder [0] ["f.txt"] = LookupResult.Missing := by
  decide

/-- Claim C3 (amended): a single-component path resolves to `Directory` when
    the component is a known tag display and to `Missing` otherwise — with an
    empty parent the candidate set is `None` (empty), never the set of all
    file-ids, so a bare basename under root is never classified `File`. -/
theorem c3_single_component_lookup (fs : TagFS) (order : List Nat) (name : String) :
    fs.lookupWithOrder order [name] =
      if fs.containsTag name then LookupResult.Directory else LookupResult.Missing := by
  cases h : fs.containsTag name <;>
    simp [TagFS.lookupWithOrder, TagFS.validFiles, h]

/-- Claim C9 (code evaluated at the failing input): the underlying `read`
    syscall reports 3 bytes (`[1, 2, 3]`) for a request of `size = 10`, yet
    `LibcWrapperReal::read` returns the full 10-byte zero-padded buffer, and
    `TagFS::read` hands exactly that buffer to the kernel callback. -/
theorem c9_read_returns_padded_buffer :
    LibcWrapperReal.read (fun _ => Except.ok 0) (fun _ => Except.ok [1, 2, 3]) 0 10 =
        Except.ok [1, 2, 3, 0, 0, 0, 0, 0, 0, 0] ∧
      TagFS.readAdapter
          (LibcWrapperReal.read (fun _ => Except.ok 0) (fun _ => Except.ok [1, 2, 3]) 0 10) =
        Except.ok [1, 2, 3, 0, 0, 0, 0, 0, 0, 0] ∧
      ([1, 2, 3, 0, 0, 0, 0, 0, 0, 0] : List Nat).length = 10 :=
  ⟨rfl, rfl, rfl⟩

/-- Claim C10 (counterexample): for `st_mode = 0` (file-type bits matching
    none of the seven known kinds) `mode_to_filetype` panics — modelled as
    `none`, no `FileType` and no errno reply — whereas the spec-modelled
    variant returns the EIO errno (5). -/
theorem c10_unknown_mode_counterexample :
    mode_to_filetype 0 = none ∧ mode_to_filetype_spec 0 = Except.error 5 :=
  ⟨rfl, rfl⟩

/-- Claim C10 (amended): `mode_to_filetype` has no ordinary result (it
    panics) exactly when the file-type bits of `st_mode` match none of the
    seven known kinds; on the seven known kinds it returns a `FileType`. -/
theorem c10_mode_to_filetype_characterization (mode : Nat) :
    mode_to_filetype mode = none ↔
      mode &&& S_IFMT ≠ S_IFDIR ∧ mode &&& S_IFMT ≠ S_IFREG ∧
        mode &&& S_IFMT ≠ S_IFLNK ∧ mode &&& S_IFMT ≠ S_IFBLK ∧
        mode &&& S_IFMT ≠ S_IFCHR ∧ mode &&& S_IFMT ≠ S_IFIFO ∧
        mode &&& S_IFMT ≠ S_IFSOCK := by
  simp only [mode_to_filetype]
  split_ifs <;> simp_all

/-- Claim C5: `unlink(parent, name)` resolves `parent/name`. On `File(src)`
    the result is the shim's `unlink(src)` with its raw errno propagated
    verbatim (so a raw `EPERM` surfaces as `EPERM`; `ENOENT` is substituted
    only when no raw errno is available); on `Directory` or `Missing` the
    result is `ENOENT` for every shim — the shim is never consulted. -/
theorem c5_unlink_errno_passthrough (fs : TagFS) (shim : UnlinkShim)
    (order : List Nat) (parent : List String) (name : String) :
    (∀ src, fs.lookupWithOrder order (parent ++ [name]) = LookupResult.File src →
        fs.unlink shim order parent name =
          (match shim src with
           | Except.ok _ => Except.ok ()
           | Except.error e => Except.error (e.rawOsError.getD ENOENT)) ∧
          (∀ e, shim src = Except.error e → e.rawOsError = some EPERM →
            fs.unlink shim order parent name = Except.error EPERM)) ∧
      ((∀ src, fs.lookupWithOrder order (parent ++ [name]) ≠ LookupResult.File src) →
        fs.unlink shim order parent name = Except.error ENOENT) := by
  cases hl : fs.lookupWithOrder order (parent ++ [name]) with
  | Directory =>
    refine ⟨fun src h => absurd h (by simp), fun _ => ?_⟩
    simp [TagFS.unlink, hl]
  | Missing =>
    refine ⟨fun src h => absurd h (by simp), fun _ => ?_⟩
    simp [TagFS.unlink, hl]
  | File s =>
    refine ⟨fun src h => ?_, fun hno => absurd rfl (hno s)⟩
    have hs : s = src := by injection h
    subst hs
    refine ⟨by simp [TagFS.unlink, hl], fun e he hraw => ?_⟩
    simp [TagFS.unlink, hl, he, hraw]

/-- Claim C5 (witness): in the `fs5` scenario the shim's `EPERM` surfaces
    unchanged. -/
theorem c5_unlink_errno_passthrough_witness :
    fs5.unlink shimEperm [0] ["tag"] "present.txt" = Except.error EPERM :=
  ((c5_unlink_errno_passthrough fs5 shimEperm [0] ["tag"] "present.txt").1
      ["fake", "source", "present.txt"] (by decide)).2
    { rawOsError := some EPERM } rfl rfl

/-- Claim C6: `unlink` takes the filesystem by immutable reference, so the
    post-state equals the pre-state: the `files` sequence and the tag map are
    unchanged by every unlink, every path still resolves as before — in
    particular the just-unlinked path still resolves to the same `File` after
    a successful unlink — and every directory listing is unchanged, so the
    file's basename remains listable. -/
theorem c6_unlink_preserves_index (fs : TagFS) (shim : UnlinkShim)
    (order : List Nat) (parent : List String) (name : String) :
    ((fs.unlinkS shim order parent name).2.files = fs.files ∧
        (fs.unlinkS shim order parent name).2.tags = fs.tags) ∧
      (∀ ord2 p, (fs.unlinkS shim order parent name).2.lookupWithOrder ord2 p =
        fs.lookupWithOrder ord2 p) ∧
      (∀ src, fs.lookupWithOrder order (parent ++ [name]) = LookupResult.File src →
        fs.unlink shim order parent name = Except.ok () →
        (fs.unlinkS shim order parent name).2.lookupWithOrder order (parent ++ [name]) =
          LookupResult.File src) ∧
      (∀ ord2 rootTags,
        getChildrenOrder ord2 rootTags (fs.unlinkS shim order parent name).2.tags
            (fs.unlinkS shim order parent name).2.files =
          getChildrenOrder ord2 rootTags fs.tags fs.files) :=
  ⟨⟨rfl, rfl⟩, fun _ _ => rfl, fun _ h _ => h, fun _ _ => rfl⟩

/-- Claim C6 (witness): after a successful unlink of `/tag/present.txt` in
    `fs5` the path still resolves to the same file entry. -/
theorem c6_unlink_preserves_index_witness :
    (fs5.unlinkS shimOk [0] ["tag"] "present.txt").2.lookupWithOrder [0]
        (["tag"] ++ ["present.txt"]) =
      LookupResult.File ["fake", "source", "present.txt"] :=
  (c6_unlink_preserves_index fs5 shimOk [0] ["tag"] "present.txt").2.2.1
    ["fake", "source", "present.txt"] (by decide) rfl

/-- Claim C7 (counterexample): the derived equality of `Tag` covers the
    singleton flag, so `Tag::new("L", true, "v")` and
    `Tag::new("L", false, "v")` — equal `(label, value)` tuples — are *not*
    equal, contrary to the claim. -/
theorem c7_singleton_flag_counterexample :
    Tag.new "L" true "v" ≠ Tag.new "L" false "v" := by
  decide

/-- Claim C7 (amended): two labeled tags compare equal exactly when their
    `(label, singleton, value)` triples match — the singleton flag *does*
    participate; two unlabeled tags compare equal exactly when their values
    match; a labeled tag never equals an unlabeled one; and the derived
    hashing is consistent with this equality. -/
theorem c7_tag_equality_structural :
    (∀ l1 s1 v1 l2 s2 v2, Tag.new l1 s1 v1 = Tag.new l2 s2 v2 ↔
        l1 = l2 ∧ s1 = s2 ∧ v1 = v2) ∧
      (∀ w1 w2, Tag.fromValue w1 = Tag.fromValue w2 ↔ w1 = w2) ∧
      (∀ l s v w, Tag.new l s v ≠ Tag.fromValue w) ∧
      (∀ t1 t2 : Tag, t1 = t2 → hash t1 = hash t2) := by
  refine ⟨fun l1 s1 v1 l2 s2 v2 => ?_, fun w1 w2 => ?_, fun l s v w => ?_,
    fun t1 t2 h => by rw [h]⟩
  · constructor
    · intro h
      simp only [Tag.new, Tag.mk.injEq, Option.some.injEq, TagLabel.mk.injEq] at h
      exact ⟨h.1.1, h.1.2, h.2.1⟩
    · rintro ⟨rfl, rfl, rfl⟩
      rfl
  · constructor
    · intro h
      simp only [Tag.fromValue, Tag.mk.injEq] at h
      tauto
    · rintro rfl
      rfl
  · intro h
    simp only [Tag.new, Tag.fromValue, Tag.mk.injEq] at h
    exact Option.some_ne_none _ h.1

/-- Claim C7 (witness): the amended characterization applied at concrete
    tags. -/
theorem c7_tag_equality_structural_witness :
    Tag.fromValue "x" = Tag.fromValue "x" ∧
      hash (Tag.new "a" true "b") = hash (Tag.new "a" true "b") :=
  ⟨(c7_tag_equality_structural.2.1 "x" "x").mpr rfl,
    c7_tag_equality_structural.2.2.2 _ _ rfl⟩

theorem getTag_eq_none {fs : TagFS} {c : String} (h : fs.containsTag c = false) :
    fs.getTag c = none := by
  cases hg : fs.getTag c with
  | none => rfl
  | some p =>
    rw [TagFS.containsTag, hg] at h
    simp at h

theorem foldl_validStep_filter (fs : TagFS) :
    ∀ (l : List String) (acc : Option (Finset Nat)),
      l.foldl fs.validStep acc = (l.filter fs.containsTag).foldl fs.validStep acc := by
  intro l
  induction l with
  | nil => intro acc; rfl
  | cons c rest ih =>
    intro acc
    cases h : fs.containsTag c with
    | false =>
      have hg : fs.getTag c = none := getTag_eq_none h
      simp [List.filter_cons, h, TagFS.validStep, hg, ih]
    | true =>
      simp [List.filter_cons, h, ih]

theorem validFiles_filter (fs : TagFS) (parent : List String) :
    fs.validFiles parent = fs.validFiles (parent.filter fs.containsTag) := by
  unfold TagFS.validFiles
  exact foldl_validStep_filter fs parent none

/-- Claim C2 (amended): a parent component that is not a known tag display is
    *ignored* by resolution, not treated as fatal: for a path whose last
    component is not a tag display, resolution gives the same answer as on
    the path with all unknown parent components removed — so such a path is
    `Missing` only when no parent component at all is a known tag or no file
    in the known components' intersection matches the basename, and it can
    still be classified `File`. -/
theorem c2_unknown_parent_components_ignored (fs : TagFS) (order : List Nat)
    (parent : List String) (name : String) (h : fs.containsTag name = false) :
    fs.lookupWithOrder order (parent ++ [name]) =
      fs.lookupWithOrder order (parent.filter fs.containsTag ++ [name]) := by
  unfold TagFS.lookupWithOrder
  have hall1 : (parent ++ [name]).all fs.containsTag = false := by
    simp [List.all_append, h]
  have hall2 : (parent.filter fs.containsTag ++ [name]).all fs.containsTag = false := by
    simp [List.all_append, h]
  simp only [hall1, hall2, Bool.false_eq_true, if_false, List.dropLast_concat,
    List.getLast?_concat, ← validFiles_filter]

/-- Claim C2 (amended, witness): the amended statement applied in `fsC2` at
    the path `/t1/unknown/f.txt`. -/
theorem c2_unknown_parent_components_ignored_witness :
    fsC2.lookupWithOrder [0] (["t1", "unknown"] ++ ["f.txt"]) =
      fsC2.lookupWithOrder [0] ((["t1", "unknown"].filter fsC2.containsTag) ++ ["f.txt"]) :=
  c2_unknown_parent_components_ignored fsC2 [0] ["t1", "unknown"] "f.txt" (by decide)

theorem mem_singletonLabels {rootTags : List String} {tags : List (Tag × Finset Nat)}
    {ln : Option String} :
    ln ∈ singletonLabels rootTags tags ↔
      ∃ u, u ∈ tags.map Prod.fst ∧ u.display ∈ rootTags ∧
        u.isSingleton = true ∧ u.labelName = ln := by
  simp only [singletonLabels, List.mem_map, List.mem_filter, Bool.and_eq_true,
    List.elem_eq_mem, decide_eq_true_iff]
  tauto

/-- Claim C4: membership of the tag-directory children of a listing is
    exactly "indexed tag whose display is not among the path's components and
    which is not a singleton tag whose label equals the label of some
    singleton tag appearing on the path"; in particular once a singleton tag
    of some label is committed on the path, no singleton tag of that label
    (no other value of it) appears as a directory entry. -/
theorem c4_tag_directory_children_exact (tags : List (Tag × Finset Nat))
    (rootTags : List String) (t : Tag) :
    (t ∈ tagDirChildren rootTags tags ↔
        t ∈ tags.map Prod.fst ∧ t.display ∉ rootTags ∧
          ¬(t.isSingleton = true ∧
            ∃ u, u ∈ tags.map Prod.fst ∧ u.isSingleton = true ∧
              u.display ∈ rootTags ∧ u.labelName = t.labelName)) ∧
      (∀ u, u ∈ tags.map Prod.fst → u.isSingleton = true → u.display ∈ rootTags →
        u.labelName = t.labelName → t.isSingleton = true →
        t ∉ tagDirChildren rootTags tags) := by
  have hmain : t ∈ tagDirChildren rootTags tags ↔
      t ∈ tags.map Prod.fst ∧ t.display ∉ rootTags ∧
        ¬(t.isSingleton = true ∧
          ∃ u, u ∈ tags.map Prod.fst ∧ u.isSingleton = true ∧
            u.display ∈ rootTags ∧ u.labelName = t.labelName) := by
    simp only [tagDirChildren, List.mem_filter, Bool.and_eq_true, Bool.or_eq_true,
      Bool.not_eq_true', List.elem_eq_mem, decide_eq_false_iff_not, decide_eq_true_iff]
    constructor
    · rintro ⟨hmem, hvis, hsing⟩
      refine ⟨hmem, hvis, ?_⟩
      rintro ⟨hts, u, hu, hus, hud, hul⟩
      rcases hsing with hs | hns
      · rw [hts] at hs
        cases hs
      · exact hns (mem_singletonLabels.mpr ⟨u, hu, hud, hus, hul⟩)
    · rintro ⟨hmem, hvis, hnot⟩
      refine ⟨hmem, hvis, ?_⟩
      cases hts : t.isSingleton with
      | false => exact Or.inl rfl
      | true =>
        refine Or.inr ?_
        intro hln
        rcases mem_singletonLabels.mp hln with ⟨u, hu, hud, hus, hul⟩
        exact hnot ⟨hts, u, hu, hus, hud, hul⟩
  refine ⟨hmain, fun u hu hus hud hul hts hmem => ?_⟩
  rcases hmain.mp hmem with ⟨_, _, hnot⟩
  exact hnot ⟨hts, u, hu, hus, hud, hul⟩

/-- Claim C4 (witness): in the singleton-suppression scenario of the tests
    (`singleton:v1` committed on the path), the other value `singleton:v2` is
    not a directory child, while the unrelated `tag1` is. -/
theorem c4_tag_directory_children_exact_witness :
    Tag.new "singleton" true "v2" ∉
        tagDirChildren ["singleton:v1"]
          [(Tag.new "singleton" true "v1", {0}),
           (Tag.new "singleton" true "v2", ∅),
           (Tag.fromValue "tag1", ∅)] ∧
      Tag.fromValue "tag1" ∈
        tagDirChildren ["singleton:v1"]
          [(Tag.new "singleton" true "v1", {0}),
           (Tag.new "singleton" true "v2", ∅),
           (Tag.fromValue "tag1", ∅)] :=
  ⟨(c4_tag_directory_children_exact
        [(Tag.new "singleton" true "v1", {0}),
         (Tag.new "singleton" true "v2", ∅),
         (Tag.fromValue "tag1", ∅)] ["singleton:v1"]
        (Tag.new "singleton" true "v2")).2
      (Tag.new "singleton" true "v1") (by decide) (by decide) (by decide)
      (by decide) (by decide),
    (c4_tag_directory_children_exact
        [(Tag.new "singleton" true "v1", {0}),
         (Tag.new "singleton" true "v2", ∅),
         (Tag.fromValue "tag1", ∅)] ["singleton:v1"]
        (Tag.fromValue "tag1")).1.mpr
      (by refine ⟨by decide, by decide, ?_⟩
          rintro ⟨hs, -⟩
          simp [Tag.fromValue, Tag.isSingleton] at hs)⟩

theorem mem_uniqueKeepFirstAux :
    ∀ (l seen : List String) (a : String),
      a ∈ uniqueKeepFirstAux seen l ↔ a ∈ l ∧ a ∉ seen := by
  intro l
  induction l with
  | nil => intro seen a; simp [uniqueKeepFirstAux]
  | cons x xs ih =>
    intro seen a
    by_cases hx : x ∈ seen
    · simp only [uniqueKeepFirstAux]
      rw [if_pos (by simpa using hx), ih]
      simp only [List.mem_cons]
      constructor
      · rintro ⟨ha, hs⟩
        exact ⟨Or.inr ha, hs⟩
      · rintro ⟨ha | ha, hs⟩
        · exact absurd (ha ▸ hx) hs
        · exact ⟨ha, hs⟩
    · simp only [uniqueKeepFirstAux]
      rw [if_neg (by simpa using hx)]
      simp only [List.mem_cons, ih]
      constructor
      · rintro (rfl | ⟨ha, hs⟩)
        · exact ⟨Or.inl rfl, hx⟩
        · exact ⟨Or.inr ha, fun hmem => hs (Or.inr hmem)⟩
      · rintro ⟨rfl | ha, hs⟩
        · exact Or.inl rfl
        · by_cases hax : a = x
          · exact Or.inl hax
          · exact Or.inr ⟨ha, fun hmem => hmem.elim hax hs⟩

theorem nodup_uniqueKeepFirstAux :
    ∀ (l seen : List String), (uniqueKeepFirstAux seen l).Nodup := by
  intro l
  induction l with
  | nil => intro seen; simp [uniqueKeepFirstAux]
  | cons x xs ih =>
    intro seen
    by_cases hx : x ∈ seen
    · simp only [uniqueKeepFirstAux]
      rw [if_pos (by simpa using hx)]
      exact ih seen
    · simp only [uniqueKeepFirstAux]
      rw [if_neg (by simpa using hx), List.nodup_cons]
      exact ⟨fun hmem => ((mem_uniqueKeepFirstAux xs (x :: seen) x).mp hmem).2
        (List.mem_cons_self x seen), ih (x :: seen)⟩

theorem mem_fileChildrenOrder {order : List Nat} {files : List Entry} {b : String} :
    b ∈ fileChildrenOrder order files ↔
      ∃ i, i ∈ order ∧ ∃ e, files[i]? = some e ∧ e.source.getLast? = some b := by
  unfold fileChildrenOrder uniqueKeepFirst
  rw [mem_uniqueKeepFirstAux]
  simp only [List.not_mem_nil, not_false_iff, and_true, List.mem_filterMap]
  constructor
  · rintro ⟨e, he, hb⟩
    rcases he with ⟨i, hi, hgi⟩
    exact ⟨i, hi, e, hgi, hb⟩
  · rintro ⟨i, hi, e, hgi, hb⟩
    exact ⟨e, ⟨i, hi, hgi⟩, hb⟩

/-- Claim C8 (counterexample): in `fs8` both file entries share the basename
    `f.txt` and both ids lie in the intersection set for parent `/t`; when
    the hash set's iteration happens to enumerate `[1, 0]` — a valid
    enumeration of `{0, 1}` — `lookup` returns the entry of id 1
    (`/b/f.txt`), not the insertion-order-first entry of id 0 (`/a/f.txt`). -/
theorem c8_iteration_order_counterexample :
    fs8.validFiles ["t"] = some {0, 1} ∧
      ([1, 0] : List Nat).Nodup ∧
      (↑([1, 0] : List Nat) : Multiset Nat) = ({0, 1} : Finset Nat).val ∧
      fs8.lookupWithOrder [1, 0] ["t", "f.txt"] = LookupResult.File ["b", "f.txt"] ∧
      fs8.files[0]? = some { source := ["a", "f.txt"] } ∧
      (["b", "f.txt"] : List String) ≠ ["a", "f.txt"] := by
  refine ⟨by decide, by decide, by decide, by decide, by decide, by decide⟩

/-- Claim C8 (amended): the entry returned for a shared basename is the first
    match in the hash set's (unspecified) iteration order, not necessarily
    the first in insertion order: for every enumeration `order` of the
    intersection set, a `File` result is some entry of the set whose basename
    matches — and directory listings deduplicate file children by basename
    keeping the first occurrence in that same iteration order, so the listing
    is duplicate-free and contains exactly the basenames of the enumerated
    entries. -/
theorem c8_lookup_order_dependence (fs : TagFS) (order : List Nat)
    (parent : List String) (name : String) (vf : Finset Nat) (src : List String) :
    (fs.validFiles parent = some vf →
        (∀ i, i ∈ order → i ∈ vf) →
        fs.containsTag name = false →
        fs.lookupWithOrder order (parent ++ [name]) = LookupResult.File src →
        ∃ i, i ∈ vf ∧ ∃ e, fs.files[i]? = some e ∧ e.source = src ∧
          e.source.getLast? = some name) ∧
      (fileChildrenOrder order fs.files).Nodup ∧
      (∀ b, b ∈ fileChildrenOrder order fs.files ↔
        ∃ i, i ∈ order ∧ ∃ e, fs.files[i]? = some e ∧ e.source.getLast? = some b) := by
  refine ⟨fun hvf hord hname hlk => ?_, nodup_uniqueKeepFirstAux _ _,
    fun b => mem_fileChildrenOrder⟩
  unfold TagFS.lookupWithOrder at hlk
  rw [if_neg (by simp [List.all_append, hname]), List.dropLast_concat, hvf] at hlk
  cases hh : ((order.filterMap (fun i => fs.files[i]?)).filter
      (fun e => e.source.getLast? == (parent ++ [name]).getLast?)).head? with
  | none =>
    rw [hh] at hlk
    simp at hlk
  | some e =>
    rw [hh] at hlk
    have hsrc : e.source = src := by simpa using hlk
    have hel : e ∈ (order.filterMap (fun i => fs.files[i]?)).filter
        (fun e => e.source.getLast? == (parent ++ [name]).getLast?) := by
      rcases List.head?_eq_some_iff.mp hh with ⟨ys, hys⟩
      rw [hys]
      exact List.mem_cons_self _ _
    rcases List.mem_filter.mp hel with ⟨hmem, hbeq⟩
    rcases List.mem_filterMap.mp hmem with ⟨i, hi, hgi⟩
    have hlast : e.source.getLast? = some name := by
      rw [List.getLast?_concat] at hbeq
      exact eq_of_beq hbeq
    exact ⟨i, hord i hi, e, hgi, hsrc, hlast⟩

/-- Claim C8 (amended, witness): the amended statement applied in `fs8` with
    the enumeration `[1, 0]` of the intersection set `{0, 1}`. -/
theorem c8_lookup_order_dependence_witness :
    ∃ i, i ∈ ({0, 1} : Finset Nat) ∧ ∃ e, fs8.files[i]? = some e ∧
      e.source = ["b", "f.txt"] ∧ e.source.getLast? = some "f.txt" :=
  (c8_lookup_order_dependence fs8 [1, 0] ["t"] "f.txt" {0, 1} ["b", "f.txt"]).1
    (by decide)
    (by intro i hi
        simp only [List.mem_cons, List.not_mem_nil, or_false] at hi
        rcases hi with rfl | rfl <;> decide)
    (by decide) (by decide)
